import Mathlib

/-
Verification of the oschwald/go-toml prototype decoder (src/toml2/toml.go)
and the jpath matcher (src/jpath/match.go) against its natural-language
specification.

The decoder is embedded shallowly: the input stream is the list of
remaining runes, a rune is an `Int` so that the library's end-of-input
sentinel (-1) is representable, and each Go function becomes a Lean
function over that list.  Loops that the source can run forever are given
a fuel parameter; a result of `none` means the fuel ran out no matter how
much was supplied, i.e. the source loop diverges.  Go panics are modelled
as a dedicated failure value that propagates without being wrapped by the
`fmt.Errorf` wrappers (which only wrap returned errors).

The underlying rune reader is the external go-buffruneio library (a
vendored third-party dependency, not part of this repository): its
`PeekRunes(n)` returns up to n runes, appending the EOF sentinel rune when
the end of the stream falls inside the window and stopping there, and its
`ReadRune` converts io.EOF into the EOF sentinel rune, so for an in-memory
source it never returns a non-nil error.
-/

abbrev Rune := Int

/-- End-of-input sentinel, toml.go: `eof = -(iota + 1)`. -/
def eof : Rune := -1

/-- toml.go rune constants. -/
def tab : Rune := 0x09

def space : Rune := 0x20

def lf : Rune := 0x0A

def cr : Rune := 0x0D

/-- Errors returned through Go `error` values, one constructor per
`fmt.Errorf` site in the source; wrapping sites keep the wrapped error. -/
inductive EKind
  | unfinishedLiteral
  | unfinishedString
  | unfinishedEscapeSequence
  | unfinishedSequence
  | incorrectCharacter (c : Rune)
  | invalidParseInt (length : Nat)
  | invalidUnicodeEscape4 (e : EKind)
  | invalidUnicodeEscape8 (e : EKind)
  | unescapedControl (c : Rune)
  | literalKey (e : EKind)
  | quotedKey (e : EKind)
  | emptyKey
  | keyErr (e : EKind)
  | expectedEquals (c : Rune)
  | unexpectedTopLevel (c : Rune)
  | notAPointer
  | isNilPointer
deriving DecidableEq

/-- A failed computation: either the unconditional panic raised inside
`read` (a Go panic, which propagates past the error-wrapping sites), or an
ordinary returned error. -/
inductive Failure
  | panicRead
  | err (e : EKind)
deriving DecidableEq

/-- Wrap a returned error the way a `fmt.Errorf("...: %s", err)` site does;
panics are not error returns and pass through untouched. -/
def wrapF (w : EKind → EKind) : Failure → Failure
  | Failure.panicRead => Failure.panicRead
  | Failure.err e => Failure.err (w e)

/-- Result of a fuelled computation: `none` means the fuel ran out, used to
witness divergence of source loops that make no progress. -/
abbrev PRes (α : Type) := Option (Except Failure α)

/-- A rune-consumption primitive: what `dec.read()` does to the stream. -/
abbrev Rd := List Rune → Except Failure (Rune × List Rune)

/-- buffruneio `PeekRunes(n)` over the remaining input: up to n runes, with
the EOF sentinel appended when the end of input falls inside the window
(and nothing after it). -/
def peekRunes (n : Nat) (s : List Rune) : List Rune :=
  (s ++ [eof]).take n

/-- toml.go `peek`: `PeekRunes(1)` always yields exactly one rune (the EOF
sentinel at end of input), so the source's panic branch on a length other
than one is dead code; the single rune is returned. -/
def peek (s : List Rune) : Rune :=
  (peekRunes 1 s).headD eof

/-- buffruneio `ReadRune` on an in-memory source: the next rune and the
advanced stream, or the EOF sentinel at end of input; the error result is
always nil because the library converts io.EOF into the EOF rune. -/
def readRune (s : List Rune) : Rune × List Rune :=
  match s with
  | [] => (eof, [])
  | r :: rest => (r, rest)

/-- toml.go `read` (lines 258-262): calls ReadRune — whose error is always
nil here, see `readRune` — and then panics unconditionally: the source has
no `if err != nil` guard around the panic, so `return r` is dead code and
every call fails, whatever input remains. -/
def read : Rd := fun _ => Except.error Failure.panicRead

/-- The evidently intended consumption primitive, i.e. the dead `return r`
path of `read` once the missing `if err != nil` guard is restored: return
the next rune and advance.  The parsing routines are additionally
instantiated over this repaired read so that their own logic can be
assessed independently of the `read` slip (claim C1). -/
def readRepaired : Rd := fun s => Except.ok (readRune s)

/-- toml.go `isRuneWhitespace`: tab or space. -/
def isRuneWhitespace (r : Rune) : Bool :=
  r = space || r = tab

/-- toml.go `isStartOfKey`. -/
def isStartOfKey (r : Rune) : Bool :=
  (97 ≤ r && r ≤ 122) || (65 ≤ r && r ≤ 90) ||
    (48 ≤ r && r ≤ 57) ||
    r = 45 || r = 95 ||
    r = 39 || r = 34

/-- toml.go `isDigit` uses Go `unicode.IsNumber`; only its ASCII fragment
is ever exercised by the inputs of the claims, so the predicate is
modelled on ASCII digits. -/
def isDigit (r : Rune) : Bool :=
  48 ≤ r && r ≤ 57

/-- toml.go `isHexDigit`. -/
def isHexDigit (r : Rune) : Bool :=
  isDigit r || (97 ≤ r && r ≤ 102) || (65 ≤ r && r ≤ 70)

/-- toml.go `isAlphanumeric` uses Go `unicode.IsLetter`; modelled on its
ASCII fragment (the only one the claims exercise) plus underscore. -/
def isAlphanumeric (r : Rune) : Bool :=
  (65 ≤ r && r ≤ 90) || (97 ≤ r && r ≤ 122) || r = 95

/-- toml.go `isValidBareKeyChar`. -/
def isValidBareKeyChar (r : Rune) : Bool :=
  isAlphanumeric r || r = 45 || isDigit r

/-- Whether a rune is a valid Unicode scalar value (what Go `string(rune)`
keeps as-is). -/
def isValidScalar (r : Rune) : Bool :=
  (0 ≤ r && r ≤ 0x10FFFF) && !(0xD800 ≤ r && r ≤ 0xDFFF)

/-- Go `string(r)` for a single rune: the rune itself when it is a valid
Unicode scalar value, otherwise the replacement character U+FFFD. -/
def goStr (r : Rune) : List Rune :=
  [if isValidScalar r then r else 0xFFFD]

/-- Go `rune(intcode)` where intcode is a non-negative int64: truncation to
int32. -/
def runeOfInt64 (n : Nat) : Rune :=
  if n % 4294967296 < 2147483648 then ((n % 4294967296 : Nat) : Int)
  else ((n % 4294967296 : Nat) : Int) - 4294967296

/-- The value of one ASCII hex digit, as `strconv.ParseInt` base 16 reads
it; `none` for anything ParseInt rejects. -/
def hexDigitValue (r : Rune) : Option Nat :=
  if 48 ≤ r ∧ r ≤ 57 then some (r - 48).toNat
  else if 97 ≤ r ∧ r ≤ 102 then some (r - 87).toNat
  else if 65 ≤ r ∧ r ≤ 70 then some (r - 55).toNat
  else none

/-- Go `strconv.ParseInt(code, 16, bitSize)` for the plain, unsigned-form
hex strings the source passes: succeeds iff every character is an ASCII hex
digit and the value fits below 2^(bitSize-1). -/
def parseIntHex (rs : List Rune) (bitSize : Nat) : Option Nat :=
  match rs.mapM hexDigitValue with
  | none => none
  | some ds =>
    let v := ds.foldl (fun a d => a * 16 + d) 0
    if v ≤ 2 ^ (bitSize - 1) - 1 then some v else none

/-- toml.go `skipWhitespace` (lines 264-275), parameterised by the
consumption primitive.  The source loop has no else branch: on a rune that
is neither EOF nor whitespace it neither consumes nor breaks, so it spins
forever — hence the fuel. -/
def skipWhitespaceG (rd : Rd) : Nat → List Rune → PRes (List Rune)
  | 0, _ => none
  | fuel+1, s =>
    if peek s = eof then some (Except.ok s)
    else if isRuneWhitespace (peek s) then
      match rd s with
      | Except.error f => some (Except.error f)
      | Except.ok (_, s1) => skipWhitespaceG rd fuel s1
    else skipWhitespaceG rd fuel s

/-- The inner comment-consuming loop of
`skipWhitespaceAndNewlinesAndComments` (lines 302-316).  Its three cases
fire only on a CRLF pair, on a peek result that is exactly one LF rune, or
on EOF; any other window (in particular any ordinary comment character)
matches no case and the loop spins without consuming — hence the fuel. -/
def commentLoopG (rd : Rd) : Nat → List Rune → PRes (List Rune)
  | 0, _ => none
  | fuel+1, s =>
    if peekRunes 2 s = [cr, lf] then
      match rd s with
      | Except.error f => some (Except.error f)
      | Except.ok (_, s1) =>
        match rd s1 with
        | Except.error f => some (Except.error f)
        | Except.ok (_, s2) => some (Except.ok s2)
    else if peekRunes 2 s = [lf] then
      match rd s with
      | Except.error f => some (Except.error f)
      | Except.ok (_, s1) => some (Except.ok s1)
    else if peekRunes 2 s = [eof] then some (Except.ok s)
    else commentLoopG rd fuel s

/-- toml.go `skipWhitespaceAndNewlinesAndComments` (lines 277-321).  The
outer loop continues only on whitespace, LF, or a CRLF pair; after the
comment branch (and on any other rune, including a bare CR) control falls
through to the unconditional `break`, so the function makes at most a
single pass over one comment. -/
def skipTriviaG (rd : Rd) : Nat → List Rune → PRes (List Rune)
  | 0, _ => none
  | fuel+1, s =>
    if peek s = eof then some (Except.ok s)
    else if isRuneWhitespace (peek s) || peek s = lf then
      match rd s with
      | Except.error f => some (Except.error f)
      | Except.ok (_, s1) => skipTriviaG rd fuel s1
    else if peek s = cr ∧ peekRunes 2 s = [cr, lf] then
      match rd s with
      | Except.error f => some (Except.error f)
      | Except.ok (_, s1) =>
        match rd s1 with
        | Except.error f => some (Except.error f)
        | Except.ok (_, s2) => skipTriviaG rd fuel s2
    else if peek s = 35 then
      match rd s with
      | Except.error f => some (Except.error f)
      | Except.ok (_, s1) =>
        match commentLoopG rd fuel s1 with
        | none => none
        | some (Except.error f) => some (Except.error f)
        | some (Except.ok s2) => some (Except.ok s2)
    else some (Except.ok s)

/-- toml.go `parseLiteralString` (lines 137-157), after the opening quote.
On a rune that is neither EOF nor the closing quote the source appends the
peeked rune to the growing string but never consumes it, so the loop spins
forever on any non-empty literal body — hence the fuel. -/
def parseLiteralStringG (rd : Rd) : Nat → List Rune → List Rune → PRes (List Rune × List Rune)
  | 0, _, _ => none
  | fuel+1, acc, s =>
    if peek s = eof then some (Except.error (Failure.err EKind.unfinishedLiteral))
    else if peek s = 39 then
      match rd s with
      | Except.error f => some (Except.error f)
      | Except.ok (_, s1) => some (Except.ok (acc, s1))
    else parseLiteralStringG rd fuel (acc ++ goStr (peek s)) s

/-- The hex-checking loop of `parseUnicodeEscapeSequence` (lines 221-226):
for each peeked rune, consume one rune, then reject it if it is not a hex
digit. -/
def checkHexLoopG (rd : Rd) : List Rune → List Rune → Except Failure (List Rune)
  | [], s => Except.ok s
  | c :: cs, s =>
    match rd s with
    | Except.error f => Except.error f
    | Except.ok (_, s1) =>
      if !isHexDigit c then Except.error (Failure.err (EKind.incorrectCharacter c))
      else checkHexLoopG rd cs s1

/-- toml.go `parseUnicodeEscapeSequence` (lines 216-233): peek `length`
runes, fail when fewer are available before EOF, consume them while
checking they are hex digits, parse the hex value with
`strconv.ParseInt(code, 16, length*8)`, and expand with Go
`string(rune(intcode))` — which silently replaces any non-scalar value
(surrogates, out-of-range) with U+FFFD; the source performs no
scalar-value validation of its own. -/
def parseUnicodeEscapeSequenceG (rd : Rd) (length : Nat) (s : List Rune) :
    Except Failure (List Rune × List Rune) :=
  let hexRunes := peekRunes length s
  if hexRunes.length < length ∨ hexRunes.getD (length - 1) 0 = eof then
    Except.error (Failure.err EKind.unfinishedSequence)
  else
    match checkHexLoopG rd hexRunes s with
    | Except.error f => Except.error f
    | Except.ok s2 =>
      match parseIntHex hexRunes (length * 8) with
      | none => Except.error (Failure.err (EKind.invalidParseInt length))
      | some intcode => Except.ok (goStr (runeOfInt64 intcode), s2)

/-- toml.go `parseQuotedString` (lines 159-214), after the opening double
quote.  The escape dispatch is translated branch for branch: the first
condition accepts `"`, backslash, `/` and `b` and appends the escape
character itself; the following `e == 'b'` branch is therefore
unreachable; the simple-escape branches never consume the escape
character, which is reprocessed as ordinary input on the next iteration;
and an escape character matching no branch is silently skipped (no default
error). -/
def parseQuotedStringG (rd : Rd) : Nat → List Rune → List Rune → PRes (List Rune × List Rune)
  | 0, _, _ => none
  | fuel+1, acc, s =>
    if peek s = eof then some (Except.error (Failure.err EKind.unfinishedString))
    else if peek s = 34 then
      match rd s with
      | Except.error f => some (Except.error f)
      | Except.ok (_, s1) => some (Except.ok (acc, s1))
    else if peek s = 92 then
      match rd s with
      | Except.error f => some (Except.error f)
      | Except.ok (_, s1) =>
        let e := peek s1
        if e = eof then some (Except.error (Failure.err EKind.unfinishedEscapeSequence))
        else if e = 34 ∨ e = 92 ∨ e = 47 ∨ e = 98 then
          parseQuotedStringG rd fuel (acc ++ goStr e) s1
        else if e = 98 then parseQuotedStringG rd fuel (acc ++ [8]) s1
        else if e = 102 then parseQuotedStringG rd fuel (acc ++ [12]) s1
        else if e = 110 then parseQuotedStringG rd fuel (acc ++ [10]) s1
        else if e = 114 then parseQuotedStringG rd fuel (acc ++ [13]) s1
        else if e = 116 then parseQuotedStringG rd fuel (acc ++ [9]) s1
        else if e = 117 then
          match rd s1 with
          | Except.error f => some (Except.error f)
          | Except.ok (_, s2) =>
            match parseUnicodeEscapeSequenceG rd 4 s2 with
            | Except.error f => some (Except.error (wrapF EKind.invalidUnicodeEscape4 f))
            | Except.ok (us, s3) => parseQuotedStringG rd fuel (acc ++ us) s3
        else if e = 85 then
          match rd s1 with
          | Except.error f => some (Except.error f)
          | Except.ok (_, s2) =>
            match parseUnicodeEscapeSequenceG rd 8 s2 with
            | Except.error f => some (Except.error (wrapF EKind.invalidUnicodeEscape8 f))
            | Except.ok (us, s3) => parseQuotedStringG rd fuel (acc ++ us) s3
        else parseQuotedStringG rd fuel acc s1
    else if 0 ≤ peek s ∧ peek s ≤ 31 then
      some (Except.error (Failure.err (EKind.unescapedControl (peek s))))
    else
      match rd s with
      | Except.error f => some (Except.error f)
      | Except.ok (_, s1) => parseQuotedStringG rd fuel (acc ++ goStr (peek s)) s1

/-- The bare-key loop of `parseSimpleKey` (lines 122-131): greedily consume
valid bare-key runes; when zero characters are consumed the empty key is
returned with a nil error — the source has no emptiness check on this
branch. -/
def bareKeyLoopG (rd : Rd) : Nat → List Rune → List Rune → PRes (List Rune × List Rune)
  | 0, _, _ => none
  | fuel+1, acc, s =>
    if isValidBareKeyChar (peek s) then
      match rd s with
      | Except.error f => some (Except.error f)
      | Except.ok (_, s1) => bareKeyLoopG rd fuel (acc ++ goStr (peek s)) s1
    else some (Except.ok (acc, s))

/-- toml.go `parseSimpleKey` (lines 101-135): dispatch on the lookahead
rune — literal key body (no emptiness check), basic-quoted key body (empty
result is an error), else bare key via `bareKeyLoopG`. -/
def parseSimpleKeyG (rd : Rd) (fuel : Nat) (s : List Rune) : PRes (List Rune × List Rune) :=
  if peek s = 39 then
    match rd s with
    | Except.error f => some (Except.error f)
    | Except.ok (_, s1) =>
      match parseLiteralStringG rd fuel [] s1 with
      | none => none
      | some (Except.error f) => some (Except.error (wrapF EKind.literalKey f))
      | some (Except.ok (key, s2)) => some (Except.ok (key, s2))
  else if peek s = 34 then
    match rd s with
    | Except.error f => some (Except.error f)
    | Except.ok (_, s1) =>
      match parseQuotedStringG rd fuel [] s1 with
      | none => none
      | some (Except.error f) => some (Except.error (wrapF EKind.quotedKey f))
      | some (Except.ok (key, s2)) =>
        if key.length = 0 then some (Except.error (Failure.err EKind.emptyKey))
        else some (Except.ok (key, s2))
  else bareKeyLoopG rd fuel [] s

/-- The dotted-key accumulation loop of `parseDottedKey` (lines 86-97):
while the lookahead is a dot, consume it, parse the next simple key, and
append `"." + keyPart` to the single growing string — the segments are
concatenated back together, not kept as a list. -/
def dottedLoopG (rd : Rd) : Nat → List Rune → List Rune → PRes (List Rune × List Rune)
  | 0, _, _ => none
  | fuel+1, key, s =>
    if peek s = 46 then
      match rd s with
      | Except.error f => some (Except.error f)
      | Except.ok (_, s1) =>
        match parseSimpleKeyG rd fuel s1 with
        | none => none
        | some (Except.error f) => some (Except.error f)
        | some (Except.ok (keyPart, s2)) => dottedLoopG rd fuel (key ++ [46] ++ keyPart) s2
    else some (Except.ok (key, s))

/-- toml.go `parseDottedKey` (lines 81-99): one simple key, then the dotted
loop; returns a single dot-joined string. -/
def parseDottedKeyG (rd : Rd) (fuel : Nat) (s : List Rune) : PRes (List Rune × List Rune) :=
  match parseSimpleKeyG rd fuel s with
  | none => none
  | some (Except.error f) => some (Except.error f)
  | some (Except.ok (key, s1)) => dottedLoopG rd fuel key s1

/-- toml.go `Decode` (lines 41-79).  The caller-supplied target is
represented by the pointer-validity flags and by the first component of
the result: the value written through the pointer, `none` when nothing is
written.  The source contains no statement that writes through `v` —
value parsing, table parsing and binding are `TODO` stubs — so every path
of the translation yields `none` for it; on a `[` lookahead the table
branch is an empty TODO and the call returns a nil error at once. -/
def DecodeG (rd : Rd) (fuel : Nat) (isPtr isNil : Bool) (s : List Rune) :
    PRes (Option Unit × List Rune) :=
  if !isPtr then some (Except.error (Failure.err EKind.notAPointer))
  else if isNil then some (Except.error (Failure.err EKind.isNilPointer))
  else
    match skipTriviaG rd fuel s with
    | none => none
    | some (Except.error f) => some (Except.error f)
    | some (Except.ok s1) =>
      if peek s1 = 91 then some (Except.ok (none, s1))
      else if isStartOfKey (peek s1) then
        match parseDottedKeyG rd fuel s1 with
        | none => none
        | some (Except.error f) => some (Except.error (wrapF EKind.keyErr f))
        | some (Except.ok (_, s2)) =>
          match skipWhitespaceG rd fuel s2 with
          | none => none
          | some (Except.error f) => some (Except.error f)
          | some (Except.ok s3) =>
            if peek s3 ≠ 61 then
              some (Except.error (Failure.err (EKind.expectedEquals (peek s3))))
            else
              match rd s3 with
              | Except.error f => some (Except.error f)
              | Except.ok (_, s4) =>
                match skipWhitespaceG rd fuel s4 with
                | none => none
                | some (Except.error f) => some (Except.error f)
                | some (Except.ok s5) => some (Except.ok (none, s5))
      else some (Except.error (Failure.err (EKind.unexpectedTopLevel (peek s1))))

/-- The source functions, with the consumption primitive they actually
call: the unconditionally panicking `read`. -/
def skipWhitespace : Nat → List Rune → PRes (List Rune) :=
  skipWhitespaceG read

/-- toml.go `skipWhitespaceAndNewlinesAndComments` over the real `read`. -/
def skipWhitespaceAndNewlinesAndComments : Nat → List Rune → PRes (List Rune) :=
  skipTriviaG read

/-- toml.go `parseLiteralString` over the real `read`. -/
def parseLiteralString : Nat → List Rune → List Rune → PRes (List Rune × List Rune) :=
  parseLiteralStringG read

/-- toml.go `parseQuotedString` over the real `read`. -/
def parseQuotedString : Nat → List Rune → List Rune → PRes (List Rune × List Rune) :=
  parseQuotedStringG read

/-- toml.go `parseUnicodeEscapeSequence` over the real `read`. -/
def parseUnicodeEscapeSequence : Nat → List Rune → Except Failure (List Rune × List Rune) :=
  parseUnicodeEscapeSequenceG read

/-- toml.go `parseSimpleKey` over the real `read`. -/
def parseSimpleKey : Nat → List Rune → PRes (List Rune × List Rune) :=
  parseSimpleKeyG read

/-- toml.go `parseDottedKey` over the real `read`. -/
def parseDottedKey : Nat → List Rune → PRes (List Rune × List Rune) :=
  parseDottedKeyG read

/-- toml.go `Decode` over the real `read`. -/
def Decode : Nat → Bool → Bool → List Rune → PRes (Option Unit × List Rune) :=
  DecodeG read

/-- The same routines over the repaired read (claim C1 slip removed). -/
def skipWhitespaceF : Nat → List Rune → PRes (List Rune) :=
  skipWhitespaceG readRepaired

/-- skipWhitespaceAndNewlinesAndComments over the repaired read. -/
def skipWhitespaceAndNewlinesAndCommentsF : Nat → List Rune → PRes (List Rune) :=
  skipTriviaG readRepaired

/-- parseLiteralString over the repaired read. -/
def parseLiteralStringF : Nat → List Rune → List Rune → PRes (List Rune × List Rune) :=
  parseLiteralStringG readRepaired

/-- parseQuotedString over the repaired read. -/
def parseQuotedStringF : Nat → List Rune → List Rune → PRes (List Rune × List Rune) :=
  parseQuotedStringG readRepaired

/-- parseUnicodeEscapeSequence over the repaired read. -/
def parseUnicodeEscapeSequenceF : Nat → List Rune → Except Failure (List Rune × List Rune) :=
  parseUnicodeEscapeSequenceG readRepaired

/-- parseSimpleKey over the repaired read. -/
def parseSimpleKeyF : Nat → List Rune → PRes (List Rune × List Rune) :=
  parseSimpleKeyG readRepaired

/-- parseDottedKey over the repaired read. -/
def parseDottedKeyF : Nat → List Rune → PRes (List Rune × List Rune) :=
  parseDottedKeyG readRepaired

/-- Decode over the repaired read. -/
def DecodeF : Nat → Bool → Bool → List Rune → PRes (Option Unit × List Rune) :=
  DecodeG readRepaired

/-- A node of the parsed tree as the jpath matchers see it
(src/jpath/match.go): a TomlTree, a Go `[]interface\x7b\x7d` slice, or any
other leaf value. -/
inductive Node
  | tree (entries : List (String × Node))
  | array (elems : List Node)
  | value

/-- jpath/match.go `matchIndexFn.Call` (lines 68-74): when the node is a
slice and `0 <= Idx < len(arr)`, pass `arr[Idx]` to the next functor
(returned here as `some`); otherwise do nothing (`none`).  The element
access in the source is guarded by exactly that bounds check, which the
embedded `List.get` obligation discharges. -/
def matchIndexFnCall (Idx : Int) (node : Node) : Option Node :=
  match node with
  | Node.array arr =>
    if h : Idx < (arr.length : Int) ∧ Idx ≥ 0 then
      some (arr.get ⟨Idx.toNat, by omega⟩)
    else none
  | _ => none

/-- Helper: the literal-string loop of the source makes no progress on an
ordinary character (it appends the peeked rune without consuming it), so
it exhausts any amount of fuel: the loop diverges.  Holds for every
consumption primitive since none is ever called on this path. -/
theorem parseLiteralStringG_stuck (rd : Rd) (r : Rune) (rest : List Rune)
    (h1 : ¬ r = eof) (h2 : ¬ r = 39) :
    ∀ (fuel : Nat) (acc : List Rune), parseLiteralStringG rd fuel acc (r :: rest) = none := by
  intro fuel
  induction fuel with
  | zero => intro acc; rfl
  | succ n ih =>
    intro acc
    have hp : peek (r :: rest) = r := rfl
    simp only [parseLiteralStringG, hp, if_neg h1, if_neg h2]
    exact ih (acc ++ goStr r)

/-- C1: single-rune consumption.  The claim says `read` fails only when the
input is genuinely exhausted and succeeds on every non-empty remaining
input.  The source instead panics unconditionally on every call — the
ReadRune error (always nil for an in-memory source) is never tested before
the panic — so in particular it fails on the non-empty input consisting of
the single rune of the letter a. -/
theorem read_always_panics :
    (∀ s : List Rune, read s = Except.error Failure.panicRead) ∧
    read [97] = Except.error Failure.panicRead :=
  ⟨fun _ => rfl, rfl⟩

/-- C2: atomic commitment into the target.  The claim says a successful
Decode leaves the target holding the fully decoded root table after the
entire input was consumed.  On the input left-bracket x right-bracket the
source returns success immediately (the table branch is an empty TODO)
while consuming none of the input, and no path of Decode ever writes
through the target pointer (the written-value component is `none` even on
this success), so the target cannot hold the decoded root table. -/
theorem Decode_success_writes_nothing :
    Decode 32 true false [91, 120, 93] = some (Except.ok (none, [91, 120, 93])) :=
  rfl

/-- C3: fixed-point trivia skipping.  The claim says one call fully
consumes a run of consecutive comments and a second call consumes nothing.
With the repaired read, on two consecutive comments (hash CR LF hash CR
LF x) a first call consumes only the first comment — the outer loop
reaches an unconditional break after the comment branch — and an
immediately following second call consumes the second comment, so the
first call was not a fixed point and the function is not idempotent.
With the source's actual read, the function cannot consume trivia at all:
on a leading space it panics. -/
theorem skipTrivia_not_idempotent :
    skipWhitespaceAndNewlinesAndCommentsF 16 [35, 13, 10, 35, 13, 10, 120] =
      some (Except.ok [35, 13, 10, 120]) ∧
    skipWhitespaceAndNewlinesAndCommentsF 16 [35, 13, 10, 120] = some (Except.ok [120]) ∧
    skipWhitespaceAndNewlinesAndComments 4 [32, 120] = some (Except.error Failure.panicRead) :=
  ⟨rfl, rfl, rfl⟩

/-- C4: termination of parseLiteralString.  The claim says the parser
terminates on every finite input, failing UnterminatedString when the
closing quote is missing; on the unterminated literal body abc the source
loop instead appends the peeked rune a forever without consuming it —
no amount of fuel suffices — while the claimed UnterminatedString outcome
is produced only when the remaining input is empty from the start. -/
theorem parseLiteralString_unterminated_diverges :
    (∀ (fuel : Nat) (acc : List Rune), parseLiteralString fuel acc [97, 98, 99] = none) ∧
    parseLiteralString 1 [] [] = some (Except.error (Failure.err EKind.unfinishedLiteral)) := by
  constructor
  · intro fuel acc
    exact parseLiteralStringG_stuck read 97 [98, 99] (by decide) (by decide) fuel acc
  · rfl

/-- C5: exhaustive escape dispatch.  The claim says a backslash is followed
by exactly one of the nine characters of the escape set, anything else
fails InvalidEscape, and no branch is unreachable or overlapping.  With
the repaired read: the unknown escape backslash-q is silently dropped and
the q is re-read as literal text (result q, no error); backslash-slash is
accepted (result two slashes, the escape character is also re-read);
and backslash-b yields the two letters bb — the first branch catches b
and appends the letter itself, making the dedicated backspace branch
unreachable — instead of a backspace. -/
theorem parseQuotedString_escape_dispatch_bugs :
    parseQuotedStringF 32 [] [92, 113, 34] = some (Except.ok ([113], [])) ∧
    parseQuotedStringF 32 [] [92, 47, 34] = some (Except.ok ([47, 47], [])) ∧
    parseQuotedStringF 32 [] [92, 98, 34] = some (Except.ok ([98, 98], [])) :=
  ⟨rfl, rfl, rfl⟩

/-- C6: Unicode escape validation.  The claim says an escape decoding to a
surrogate fails InvalidCodePoint.  With the repaired read, the four hex
digits D800 are accepted and expanded via Go string-of-rune conversion,
which silently substitutes the replacement character U+FFFD: the call
succeeds instead of failing.  The under-length and non-hex-digit failure
modes of the claim do hold (second and third conjuncts). -/
theorem parseUnicodeEscape_surrogate_accepted :
    parseUnicodeEscapeSequenceF 4 [68, 56, 48, 48] = Except.ok ([0xFFFD], []) ∧
    parseUnicodeEscapeSequenceF 4 [68, 56, 48] =
      Except.error (Failure.err EKind.unfinishedSequence) ∧
    parseUnicodeEscapeSequenceF 4 [68, 56, 122, 122] =
      Except.error (Failure.err (EKind.incorrectCharacter 122)) :=
  ⟨rfl, rfl, rfl⟩

/-- C7: dotted keys as segment sequences.  The claim says parseDottedKey
yields the ordered segment list a, b, c on input a.b.c and keeps a quoted
dot distinguishable from a separator dot.  With the repaired read the
source returns one single dot-joined string: input a.b.c yields the single
string a.b.c, and the basic-quoted key whose body is a.b yields a result
identical to that of the bare dotted key a.b — the two cases are not
distinguishable.  The claim's literal-quoted example never returns at all:
the literal-string loop diverges on its body (last conjunct). -/
theorem parseDottedKey_concatenates :
    parseDottedKeyF 32 [97, 46, 98, 46, 99] = some (Except.ok ([97, 46, 98, 46, 99], [])) ∧
    parseDottedKeyF 32 [34, 97, 46, 98, 34] = some (Except.ok ([97, 46, 98], [])) ∧
    parseDottedKeyF 32 [97, 46, 98] = some (Except.ok ([97, 46, 98], [])) ∧
    (∀ fuel : Nat, parseDottedKeyF fuel [39, 97, 46, 98, 39] = none) := by
  refine ⟨rfl, rfl, rfl, ?_⟩
  intro fuel
  have hlit : ∀ (f : Nat) (acc : List Rune),
      parseLiteralStringG readRepaired f acc (97 :: [46, 98, 39]) = none :=
    parseLiteralStringG_stuck readRepaired 97 [46, 98, 39] (by decide) (by decide)
  show parseDottedKeyG readRepaired fuel [39, 97, 46, 98, 39] = none
  simp [parseDottedKeyG, parseSimpleKeyG, readRepaired, readRune, peek, peekRunes, hlit]

/-- C8: the empty-key rule.  The claim says a bare key consuming zero
characters fails EmptyKeyError.  With the source exactly as written (no
read is reached on this path), parseSimpleKey at an equals sign returns
the empty key with a nil error.  The basic-quoted empty key is rejected
and the literal-quoted empty key is allowed (second and third conjuncts,
over the repaired read), matching the claim on those two branches. -/
theorem parseSimpleKey_bare_empty_not_rejected :
    parseSimpleKey 10 [61, 49] = some (Except.ok ([], [61, 49])) ∧
    parseSimpleKeyF 10 [34, 34, 120] = some (Except.error (Failure.err EKind.emptyKey)) ∧
    parseSimpleKeyF 10 [39, 39, 120] = some (Except.ok ([], [120])) :=
  ⟨rfl, rfl, rfl⟩

/-- C9: duplicate key detection.  The claim says decoding the two-line
input binding key twice fails DuplicateKey.  Evaluating Decode on exactly
that input, the call dies in the unconditional panic of read at the first
key character; no error kind for duplicate keys exists anywhere in the
source (binding and value parsing are TODO stubs and the function's own
doc comment disclaims duplicate-key validation). -/
theorem Decode_no_duplicate_key_detection :
    Decode 32 true false [107, 101, 121, 61, 34, 97, 34, 10, 107, 101, 121, 61, 34, 98, 34] =
      some (Except.error Failure.panicRead) :=
  rfl

/-- C10: the index matcher never reads out of bounds.  When the node is an
array and the index lies in range, the next functor is invoked on exactly
the element at that index (and the underlying lookup is indeed `some`);
for an out-of-range index on an array, and for any non-array node, the
call does nothing. -/
theorem matchIndexFn_safe (Idx : Int) (node : Node) :
    (∀ arr, node = Node.array arr → 0 ≤ Idx → Idx < (arr.length : Int) →
      matchIndexFnCall Idx node = List.get? arr Idx.toNat ∧
        (List.get? arr Idx.toNat).isSome) ∧
    (∀ arr, node = Node.array arr → ((arr.length : Int) ≤ Idx ∨ Idx < 0) →
      matchIndexFnCall Idx node = none) ∧
    ((∀ arr, node ≠ Node.array arr) → matchIndexFnCall Idx node = none) := by
  refine ⟨?_, ?_, ?_⟩
  · intro arr hnode h0 hlt
    subst hnode
    have hn : Idx.toNat < arr.length := by omega
    constructor
    · show dite _ _ _ = _
      rw [dif_pos ⟨hlt, h0⟩, List.get?_eq_get hn]
    · rw [List.get?_eq_get hn]
      rfl
  · intro arr hnode hout
    subst hnode
    have hneg : ¬ (Idx < (arr.length : Int) ∧ Idx ≥ 0) := by omega
    show dite _ _ _ = _
    rw [dif_neg hneg]
  · intro hne
    cases node with
    | tree entries => rfl
    | array arr => exact absurd rfl (hne arr)
    | value => rfl

/-- Witness for C10: a concrete in-range application — on the two-element
array at index one, the matcher hands the second element to the next
functor and the guarded access is in bounds. -/
theorem matchIndexFn_safe_witness :
    matchIndexFnCall 1 (Node.array [Node.value, Node.value]) =
      List.get? [Node.value, Node.value] (Int.toNat 1) ∧
    (List.get? [Node.value, Node.value] (Int.toNat 1)).isSome :=
  (matchIndexFn_safe 1 (Node.array [Node.value, Node.value])).1
    [Node.value, Node.value] rfl (by decide) (by decide)
